import Mathlib

/-!
Shallow embedding of the `warehouse_env` grid-world simulation engine
(`src/warehouse_env/{config,state,utils,env}.py`) and proofs about its
reset/step semantics.

Numeric conventions: Python `int` is modelled by `Int` (or `Nat` where the
source only ever holds non-negative counts used as loop/range bounds), and the
`float` reward/fraction scalars are modelled by exact rationals `ℚ`.  Fallible
code (exceptions) is modelled by `Option`/`Except`.
-/

namespace Warehouse

/-- A grid coordinate stored as `(x, y)`, as in `state.py`. -/
abbrev Pos := Int × Int

/-- Lexicographic comparison on coordinate pairs: Python's tuple ordering,
used by `sorted(list(s.walls))` in `_obs`. -/
def posLe (a b : Pos) : Bool :=
  decide (a.1 < b.1) || (a.1 == b.1 && decide (a.2 ≤ b.2))

/-- Insert a position into an already sorted list. -/
def insertPos (x : Pos) : List Pos → List Pos
  | [] => [x]
  | y :: ys => if posLe x y then x :: y :: ys else y :: insertPos x ys

/-- Python's `sorted` on a list of positions, modelled as (stable) insertion
sort; wall cells are pairwise distinct so any sort w.r.t. the total order
`posLe` yields the same list. -/
def sortPos : List Pos → List Pos
  | [] => []
  | x :: xs => insertPos x (sortPos xs)

/-- Embedding of `EnvConfig` (`config.py`): immutable configuration with the source's
default values. -/
structure EnvConfig where
  width : Nat := 7
  height : Nat := 7
  max_steps : Int := 200
  num_packages : Nat := 1
  battery_capacity : Int := 50
  wall_fraction : ℚ := 12 / 100
  reward_deliver : ℚ := 20
  reward_pickup : ℚ := 2
  penalty_step : ℚ := -1
  penalty_bump : ℚ := -5
  penalty_drop_wrong : ℚ := -7

/-- Embedding of `Package` (`state.py`). -/
structure Package where
  id : Nat
  pos : Pos
  delivered : Bool := false
deriving DecidableEq, Repr

/-- Embedding of `EnvState` (`state.py`).  The Python `set[Pos]` of walls is modelled as the
list of walls in insertion order; all reads are order-insensitive (membership
tests, and a `sorted` projection in `_obs`). -/
structure EnvState where
  step_count : Nat
  agent_pos : Pos
  carrying_id : Option Nat
  battery : Int
  packages : List Package
  walls : List Pos
deriving DecidableEq, Repr

/-- Embedding of `EnvState.is_carrying`: derived property, `carrying_id is not None`. -/
def EnvState.is_carrying (s : EnvState) : Bool :=
  s.carrying_id.isSome

/-- Deterministic RNG wrapper (`utils.py`).  `random.Random(seed)` is a pure
function of its integer seed with no ambient state, so the generator stream is
modelled by the seed together with the number of draws consumed so far. -/
structure RNG where
  seed : Int
  draws : Nat
deriving DecidableEq, Repr

/-- Embedding of `RNG.from_seed`: a missing seed falls back to the fixed default seed 0
(never to non-reproducible entropy). -/
def RNG.from_seed (seed : Option Int) : RNG :=
  { seed := seed.getD 0, draws := 0 }

/-- Stand-in for the underlying Mersenne-Twister word stream: a deterministic
function of the seed and the draw index (an LCG-style mix).  Every property
proved below depends only on the stream being a fixed deterministic function
of the seed, never on which values it produces.  `random.Random` seeds an
integer by absolute value, whence `natAbs`. -/
def RNG.mix (seed : Int) (draws : Nat) : Nat :=
  (seed.natAbs * 1103515245 + draws * 12345 + 12820163) % 16777216

/-- Embedding of `random.Random.choice(seq)`: a uniformly drawn element of a non-empty
sequence, consuming one draw; `choice` on an empty sequence raises
`IndexError`, modelled by `none`. -/
def RNG.choice (r : RNG) (xs : List α) : Option (α × RNG) :=
  if h : xs.length = 0 then none
  else
    some (xs.get ⟨RNG.mix r.seed r.draws % xs.length,
                  Nat.mod_lt _ (Nat.pos_of_ne_zero h)⟩,
          { r with draws := r.draws + 1 })

/-- Row-major enumeration of the grid:
`for y in range(height): for x in range(width)`. -/
def gridCells (width height : Nat) : List Pos :=
  (List.range height).flatMap (fun y => (List.range width).map (fun x => ((x : Int), (y : Int))))

/-- The goal is the bottom-right cell, fixed in the environment constructor
(`env.py`, `__init__`). -/
def goalPos (cfg : EnvConfig) : Pos :=
  ((cfg.width : Int) - 1, (cfg.height : Int) - 1)

/-- Candidate cells for walls (`_spawn_walls`): every grid cell except the
agent start cell and the goal cell, in the source's row-major order. -/
def wallCandidates (cfg : EnvConfig) (agent goal : Pos) : List Pos :=
  (gridCells cfg.width cfg.height).filter (fun p => !(p == agent) && !(p == goal))

/-- Python's `int(total * wall_fraction)` on the exact rational: truncation
toward zero, computed on the raw numerator/denominator of the fraction. -/
def mulTrunc (total : Nat) (q : ℚ) : Int :=
  Int.tdiv ((total : Int) * q.num) (q.den : Int)

/-- The draw-without-replacement loop of `_spawn_walls`: `k` iterations, each
drawing one cell from the remaining candidate pool and removing it; it stops
early when the candidates are exhausted (`if not candidates: break`). -/
def spawnWallsLoop (rng : RNG) (candidates walls : List Pos) : Nat → List Pos × RNG
  | 0 => (walls, rng)
  | k + 1 =>
    match rng.choice candidates with
    | none => (walls, rng)
    | some (pos, rng') => spawnWallsLoop rng' (candidates.erase pos) (walls ++ [pos]) k

/-- Embedding of `WarehouseEnv._spawn_walls`. -/
def spawn_walls (cfg : EnvConfig) (rng : RNG) (agent : Pos) : List Pos × RNG :=
  let candidates := wallCandidates cfg agent (goalPos cfg)
  spawnWallsLoop rng candidates [] (mulTrunc candidates.length cfg.wall_fraction).toNat

/-- Candidate cells for a package (`_spawn_package_pos`): excludes the agent
start cell, the goal cell and all wall cells, in row-major order. -/
def packageCandidates (cfg : EnvConfig) (agent goal : Pos) (walls : List Pos) : List Pos :=
  (gridCells cfg.width cfg.height).filter
    (fun p => !(p == agent) && !(p == goal) && !(walls.contains p))

/-- Embedding of `WarehouseEnv._spawn_package_pos`: rebuild the candidate list and draw one
cell uniformly; `none` models the `IndexError` of `choice` on an empty
candidate list. -/
def spawn_package_pos (cfg : EnvConfig) (rng : RNG) (agent : Pos) (walls : List Pos) :
    Option (Pos × RNG) :=
  rng.choice (packageCandidates cfg agent (goalPos cfg) walls)

/-- The package spawning loop of `reset`: package `i` gets id `i`, ids assigned
in increasing order; each package rebuilds the same candidate list (walls are
fixed and packages do not exclude each other, so they may overlap). -/
def spawnPackagesLoop (cfg : EnvConfig) (agent : Pos) (walls : List Pos) (rng : RNG) (i : Nat) :
    Nat → Option (List Package × RNG)
  | 0 => some ([], rng)
  | n + 1 =>
    match spawn_package_pos cfg rng agent walls with
    | none => none
    | some (pos, rng') =>
      match spawnPackagesLoop cfg agent walls rng' (i + 1) n with
      | none => none
      | some (rest, rng'') => some ({ id := i, pos := pos, delivered := false } :: rest, rng'')

/-- The externally visible observation shape (`_obs`). -/
structure Obs where
  agent_pos : Pos
  battery : Int
  carrying : Option Nat
  packages : List (Pos × Nat)
  goal_pos : Pos
  walls : List Pos
  step_count : Nat
deriving DecidableEq, Repr

/-- Embedding of `WarehouseEnv._obs`: pure projection of the state. -/
def obs (cfg : EnvConfig) (s : EnvState) : Obs :=
  { agent_pos := s.agent_pos
    battery := s.battery
    carrying := s.carrying_id
    packages := s.packages.map (fun p => (p.pos, if p.delivered then 1 else 0))
    goal_pos := goalPos cfg
    walls := sortPos s.walls
    step_count := s.step_count }

/-- Embedding of `WarehouseEnv.reset`: seeds the RNG, places the agent at the top-left cell,
spawns walls and packages, and builds a fresh episode state.  `none` models the
`IndexError` raised when a package must be placed from an empty candidate
list. -/
def reset (cfg : EnvConfig) (seed : Option Int) : Option (EnvState × Obs) :=
  let rng := RNG.from_seed seed
  let agent : Pos := (0, 0)
  let ws := spawn_walls cfg rng agent
  (spawnPackagesLoop cfg agent ws.1 ws.2 0 cfg.num_packages).map (fun pr =>
    let s : EnvState :=
      { step_count := 0
        agent_pos := agent
        carrying_id := none
        battery := cfg.battery_capacity
        packages := pr.1
        walls := ws.1 }
    (s, obs cfg s))

/-- The exceptions `step` can raise: `ValueError` for an invalid action, and
the two `RuntimeError` families ("Inconsistent state" and "Carrying package id
not found in state"). -/
inductive StepError
  | invalidAction (a : Int)
  | inconsistentCarrying
  | packageNotFound
deriving DecidableEq, Repr

/-- The `info` dictionary of a step: an `event` label and, only on a terminal
step, a `done_reason`. -/
structure Info where
  event : Option String
  done_reason : Option String
deriving DecidableEq, Repr

/-- The `(observation, reward, done, info)` tuple returned by `step`. -/
structure StepResult where
  obs : Obs
  reward : ℚ
  done : Bool
  info : Info
deriving DecidableEq, Repr

/-- Embedding of `WarehouseEnv._move_target`: attempted next cell for a movement action
(`0` up, `1` down, `2` left, anything else right). -/
def move_target (pos : Pos) (action : Int) : Pos :=
  if action == 0 then (pos.1, pos.2 - 1)
  else if action == 1 then (pos.1, pos.2 + 1)
  else if action == 2 then (pos.1 - 1, pos.2)
  else (pos.1 + 1, pos.2)

/-- Embedding of `WarehouseEnv._can_enter`: inside grid bounds and not a wall. -/
def can_enter (cfg : EnvConfig) (x y : Int) (walls : List Pos) : Bool :=
  decide (0 ≤ x) && decide (x < (cfg.width : Int)) &&
    decide (0 ≤ y) && decide (y < (cfg.height : Int)) && !(decide ((x, y) ∈ walls))

/-- Embedding of `WarehouseEnv._package_id_at_agent`: id of the first undelivered package at
the agent's position, scanning packages in stored order. -/
def package_id_at_agent (s : EnvState) : Option Nat :=
  (s.packages.find? (fun p => !p.delivered && decide (p.pos = s.agent_pos))).map Package.id

/-- Embedding of `WarehouseEnv._set_package_pos`: move the first package with the given id;
`none` models the `RuntimeError` when the id is not found. -/
def set_package_pos (ps : List Package) (pid : Nat) (new_pos : Pos) : Option (List Package) :=
  match ps with
  | [] => none
  | p :: rest =>
    if p.id == pid then some ({ p with pos := new_pos } :: rest)
    else
      match set_package_pos rest pid new_pos with
      | none => none
      | some rest' => some (p :: rest')

/-- Embedding of `WarehouseEnv._mark_package_delivered`: set the delivered flag of the first
package with the given id; `none` models the `RuntimeError` when absent. -/
def mark_package_delivered (ps : List Package) (pid : Nat) : Option (List Package) :=
  match ps with
  | [] => none
  | p :: rest =>
    if p.id == pid then some ({ p with delivered := true } :: rest)
    else
      match mark_package_delivered rest pid with
      | none => none
      | some rest' => some (p :: rest')

/-- Embedding of `WarehouseEnv._all_delivered`. -/
def all_delivered (s : EnvState) : Bool :=
  s.packages.all (fun p => p.delivered)

/-- Output of the action-dispatch phase of `step` (its `if/elif` chain on the
action): the intermediate state together with the event label and the
`bumped` / `dropped_wrong` / `picked_up` / `delivered_now` flags. -/
structure DispatchOut where
  s1 : EnvState
  event : Option String
  bumped : Bool
  dropped_wrong : Bool
  picked_up : Bool
  delivered_now : Bool
deriving DecidableEq, Repr

/-- The action-dispatch phase of `step`: movement (actions 0-3), pickup (4),
drop/deliver (5), or `ValueError` for everything else. -/
def dispatch (cfg : EnvConfig) (s : EnvState) (action : Int) : Except StepError DispatchOut :=
  if action == 0 || action == 1 || action == 2 || action == 3 then
    let t := move_target s.agent_pos action
    if can_enter cfg t.1 t.2 s.walls then
      .ok ⟨{ s with agent_pos := t }, none, false, false, false, false⟩
    else
      .ok ⟨s, none, true, false, false, false⟩
  else if action == 4 then
    if s.is_carrying then
      .ok ⟨s, some "pickup_failed_already_carrying", false, false, false, false⟩
    else
      match package_id_at_agent s with
      | none => .ok ⟨s, some "pickup_failed_no_package", false, false, false, false⟩
      | some pid =>
        match set_package_pos s.packages pid s.agent_pos with
        | none => .error .packageNotFound
        | some ps =>
          .ok ⟨{ s with carrying_id := some pid, packages := ps },
               some "pickup", false, false, true, false⟩
  else if action == 5 then
    if !s.is_carrying then
      .ok ⟨s, some "drop_failed_not_carrying", false, false, false, false⟩
    else
      match s.carrying_id with
      | none => .error .inconsistentCarrying
      | some pid =>
        match set_package_pos s.packages pid s.agent_pos with
        | none => .error .packageNotFound
        | some ps =>
          if s.agent_pos == goalPos cfg then
            match mark_package_delivered ps pid with
            | none => .error .packageNotFound
            | some ps2 =>
              .ok ⟨{ s with packages := ps2, carrying_id := none },
                   some "deliver", false, false, false, true⟩
          else
            .ok ⟨{ s with packages := ps, carrying_id := none },
                 some "drop", false, true, false, false⟩
  else .error (.invalidAction action)

/-- The reward accumulation of `step`: the unconditional per-step penalty,
then the bump, wrong-drop, pickup and delivery adjustments in source order. -/
def rewardTotal (cfg : EnvConfig) (bumped dropped_wrong picked_up delivered_now : Bool) : ℚ :=
  let r : ℚ := 0 + cfg.penalty_step
  let r := if bumped then r + cfg.penalty_bump else r
  let r := if dropped_wrong then r + cfg.penalty_drop_wrong else r
  let r := if picked_up then r + cfg.reward_pickup else r
  let r := if delivered_now then r + cfg.reward_deliver else r
  r

/-- The carry-consistency pass of `step`: keep the carried package attached to
the (possibly just moved) agent. -/
def carryAttach (s : EnvState) : Except StepError EnvState :=
  if s.is_carrying then
    match s.carrying_id with
    | none => .error .inconsistentCarrying
    | some pid =>
      match set_package_pos s.packages pid s.agent_pos with
      | none => .error .packageNotFound
      | some ps => .ok { s with packages := ps }
  else .ok s

/-- The termination cascade of `step`, in source order: max steps, then empty
battery, then all packages delivered. -/
def termCheck (cfg : EnvConfig) (s : EnvState) : Bool × Option String :=
  if (s.step_count : Int) ≥ cfg.max_steps then (true, some "max_steps")
  else if s.battery == 0 then (true, some "battery_empty")
  else if all_delivered s then (true, some "all_delivered")
  else (false, none)

/-- The tail of `step` after the carry-consistency pass: advance the step
counter, decrement the battery (floored at 0), run the termination cascade and
assemble the step tuple. -/
def finishStep (cfg : EnvConfig) (reward : ℚ) (event : Option String) (s2 : EnvState) :
    EnvState × StepResult :=
  let s3 : EnvState := { s2 with step_count := s2.step_count + 1, battery := max (s2.battery - 1) 0 }
  let dr := termCheck cfg s3
  (s3, { obs := obs cfg s3, reward := reward, done := dr.1,
         info := { event := event, done_reason := dr.2 } })

/-- Embedding of `WarehouseEnv.step` on an active episode state. -/
def step (cfg : EnvConfig) (s : EnvState) (action : Int) :
    Except StepError (EnvState × StepResult) :=
  match dispatch cfg s action with
  | .error e => .error e
  | .ok out =>
    let reward := rewardTotal cfg out.bumped out.dropped_wrong out.picked_up out.delivered_now
    let event := if out.bumped then some "bump" else out.event
    match carryAttach out.s1 with
    | .error e => .error e
    | .ok s2 => .ok (finishStep cfg reward event s2)

/-- The state component of `step`, discarding the step tuple. -/
def stepState (cfg : EnvConfig) (s : EnvState) (action : Int) : Except StepError EnvState :=
  (step cfg s action).map Prod.fst

/-- Fold `step` over a list of actions, collecting every step tuple. -/
def runSteps (cfg : EnvConfig) (s : EnvState) : List Int → Except StepError (EnvState × List StepResult)
  | [] => .ok (s, [])
  | a :: rest =>
    match step cfg s a with
    | .error e => .error e
    | .ok (s', r) =>
      match runSteps cfg s' rest with
      | .error e => .error e
      | .ok (s'', rs) => .ok (s'', r :: rs)

/-- Fold `step` over a list of actions, keeping only the state. -/
def runStates (cfg : EnvConfig) (s : EnvState) : List Int → Except StepError EnvState
  | [] => .ok s
  | a :: rest =>
    match stepState cfg s a with
    | .error e => .error e
    | .ok s' => runStates cfg s' rest

/-- A full episode interaction: `reset(seed)` followed by the given action
sequence, producing the initial observation and every step tuple.  This is the
entire externally observable behaviour of one environment instance. -/
def runEpisode (cfg : EnvConfig) (seed : Option Int) (acts : List Int) :
    Option (Except StepError (Obs × List StepResult)) :=
  match reset cfg seed with
  | none => none
  | some (s0, o0) =>
    some (match runSteps cfg s0 acts with
          | .error e => .error e
          | .ok (_, rs) => .ok (o0, rs))

/-- States observable between calls on one environment instance: the state
produced by `reset`, and every state returned by a subsequent `step`. -/
inductive Reachable (cfg : EnvConfig) : EnvState → Prop
  | reset (seed : Option Int) (s : EnvState) (o : Obs)
      (h : reset cfg seed = some (s, o)) : Reachable cfg s
  | step (s : EnvState) (a : Int) (s' : EnvState)
      (hs : Reachable cfg s) (h : stepState cfg s a = .ok s') : Reachable cfg s'

/-- The `(done, done_reason)` view of a step outcome, together with the new
state. -/
def stepDoneReason (cfg : EnvConfig) (s : EnvState) (action : Int) :
    Except StepError (EnvState × Bool × Option String) :=
  (step cfg s action).map (fun p => (p.1, p.2.done, p.2.info.done_reason))

/-- Well-formedness of an episode state, maintained between calls: package ids
are pairwise distinct, and a carried package exists in the store, is
undelivered, and sits at the agent's position. -/
def EnvInv (s : EnvState) : Bool :=
  decide (s.packages.map Package.id).Nodup &&
    match s.carrying_id with
    | none => true
    | some pid =>
      s.packages.any (fun p => p.id == pid && !p.delivered && decide (p.pos = s.agent_pos))

/-- Package evolution across one step: ids are stable, and a delivered package
stays delivered with a frozen position. -/
def PkgStep (p q : Package) : Prop :=
  p.id = q.id ∧ (p.delivered = true → q.delivered = true ∧ q.pos = p.pos)

/-!  ### The wall placement procedure as the spec words it  -/

/-- The draw-and-remove loop as §4.2 of the spec words it: repeatedly draw one
element uniformly from the remaining candidate list via the RNG and remove it
from the pool, stopping when the requested count is reached or the candidates
are exhausted. -/
def spawnWallsSpecLoop (rng : RNG) (candidates walls : List Pos) : Nat → List Pos × RNG
  | 0 => (walls, rng)
  | k + 1 =>
    match rng.choice candidates with
    | none => (walls, rng)
    | some (pos, rng') => spawnWallsSpecLoop rng' (candidates.erase pos) (walls ++ [pos]) k

/-- Wall placement as §4.2 of the spec words it: enumerate all grid cells in
row-major order (increasing y, then increasing x) excluding exactly the agent
start cell and the goal cell, set the target count to
`floor(candidates × wall_fraction)`, and run the draw-and-remove loop. -/
def spawnWallsSpec (cfg : EnvConfig) (rng : RNG) (agent : Pos) : List Pos × RNG :=
  let candidates := (gridCells cfg.width cfg.height).filter
    (fun p => !(p == agent) && !(p == goalPos cfg))
  spawnWallsSpecLoop rng candidates [] (⌊(candidates.length : ℚ) * cfg.wall_fraction⌋).toNat

/-- Observable `raise` of the defensive "Inconsistent state" `RuntimeError`. -/
def raisesInconsistent : Except StepError α → Bool
  | .error .inconsistentCarrying => true
  | _ => false

/-!  ### Concrete test fixture

A 3×1 grid with `wall_fraction = 0`: the agent starts at `(0, 0)`, the goal is
`(2, 0)`, no walls spawn and the single package spawns on the only remaining
cell `(1, 0)`.  The states below are the states of the episode
`reset(None); step 3; step 4; step 3; step 5; step 0`
(move right, pick up, move right onto the goal, deliver, bump). -/

def testCfg : EnvConfig := { width := 3, height := 1, wall_fraction := 0 }

def tS0 : EnvState :=
  { step_count := 0, agent_pos := (0, 0), carrying_id := none, battery := 50,
    packages := [{ id := 0, pos := (1, 0), delivered := false }], walls := [] }

def tO0 : Obs :=
  { agent_pos := (0, 0), battery := 50, carrying := none, packages := [((1, 0), 0)],
    goal_pos := (2, 0), walls := [], step_count := 0 }

def tS1 : EnvState :=
  { step_count := 1, agent_pos := (1, 0), carrying_id := none, battery := 49,
    packages := [{ id := 0, pos := (1, 0), delivered := false }], walls := [] }

def tS2 : EnvState :=
  { step_count := 2, agent_pos := (1, 0), carrying_id := some 0, battery := 48,
    packages := [{ id := 0, pos := (1, 0), delivered := false }], walls := [] }

def tS3 : EnvState :=
  { step_count := 3, agent_pos := (2, 0), carrying_id := some 0, battery := 47,
    packages := [{ id := 0, pos := (2, 0), delivered := false }], walls := [] }

def tS4 : EnvState :=
  { step_count := 4, agent_pos := (2, 0), carrying_id := none, battery := 46,
    packages := [{ id := 0, pos := (2, 0), delivered := true }], walls := [] }

def tS5 : EnvState :=
  { step_count := 5, agent_pos := (2, 0), carrying_id := none, battery := 45,
    packages := [{ id := 0, pos := (2, 0), delivered := true }], walls := [] }

end Warehouse

deriving instance DecidableEq for Except

namespace Warehouse

/-!  ### Characterization of the package-store helpers  -/

theorem set_package_pos_eq_some {ps ps' : List Package} {pid : Nat} {new_pos : Pos}
    (h : set_package_pos ps pid new_pos = some ps') :
    ∃ l₁ p l₂, ps = l₁ ++ p :: l₂ ∧ (∀ q ∈ l₁, q.id ≠ pid) ∧ p.id = pid ∧
      ps' = l₁ ++ { p with pos := new_pos } :: l₂ := by
  induction ps generalizing ps' with
  | nil => simp [set_package_pos] at h
  | cons p rest ih =>
    by_cases hid : p.id = pid
    · refine ⟨[], p, rest, by simp, by simp, hid, ?_⟩
      simp only [set_package_pos, hid, beq_self_eq_true, if_pos] at h
      simpa [hid] using h.symm
    · simp only [set_package_pos, beq_iff_eq, hid, if_neg, not_false_iff] at h
      match hrec : set_package_pos rest pid new_pos with
      | none => rw [hrec] at h; exact absurd h (by simp)
      | some rest' =>
        rw [hrec] at h
        have h' : p :: rest' = ps' := by simpa using h
        obtain ⟨l₁, q, l₂, hsplit, hl₁, hq, hres⟩ := ih hrec
        refine ⟨p :: l₁, q, l₂, by simp [hsplit], ?_, hq, ?_⟩
        · intro x hx
          rcases List.mem_cons.mp hx with rfl | hx
          · exact hid
          · exact hl₁ x hx
        · simp [← h', hres]

theorem set_package_pos_isSome {ps : List Package} {pid : Nat} (new_pos : Pos)
    (h : ∃ p ∈ ps, p.id = pid) : ∃ ps', set_package_pos ps pid new_pos = some ps' := by
  induction ps with
  | nil => simp at h
  | cons p rest ih =>
    by_cases hid : p.id = pid
    · exact ⟨{ p with pos := new_pos } :: rest, by simp [set_package_pos, hid]⟩
    · obtain ⟨q, hq, hqid⟩ := h
      rcases List.mem_cons.mp hq with rfl | hq
      · exact absurd hqid hid
      · obtain ⟨rest', hrest⟩ := ih ⟨q, hq, hqid⟩
        exact ⟨p :: rest', by simp [set_package_pos, hid, hrest]⟩

theorem mark_package_delivered_eq_some {ps ps' : List Package} {pid : Nat}
    (h : mark_package_delivered ps pid = some ps') :
    ∃ l₁ p l₂, ps = l₁ ++ p :: l₂ ∧ (∀ q ∈ l₁, q.id ≠ pid) ∧ p.id = pid ∧
      ps' = l₁ ++ { p with delivered := true } :: l₂ := by
  induction ps generalizing ps' with
  | nil => simp [mark_package_delivered] at h
  | cons p rest ih =>
    by_cases hid : p.id = pid
    · refine ⟨[], p, rest, by simp, by simp, hid, ?_⟩
      simp only [mark_package_delivered, hid, beq_self_eq_true, if_pos] at h
      simpa [hid] using h.symm
    · simp only [mark_package_delivered, beq_iff_eq, hid, if_neg, not_false_iff] at h
      match hrec : mark_package_delivered rest pid with
      | none => rw [hrec] at h; exact absurd h (by simp)
      | some rest' =>
        rw [hrec] at h
        have h' : p :: rest' = ps' := by simpa using h
        obtain ⟨l₁, q, l₂, hsplit, hl₁, hq, hres⟩ := ih hrec
        refine ⟨p :: l₁, q, l₂, by simp [hsplit], ?_, hq, ?_⟩
        · intro x hx
          rcases List.mem_cons.mp hx with rfl | hx
          · exact hid
          · exact hl₁ x hx
        · simp [← h', hres]

theorem mark_package_delivered_isSome {ps : List Package} {pid : Nat}
    (h : ∃ p ∈ ps, p.id = pid) : ∃ ps', mark_package_delivered ps pid = some ps' := by
  induction ps with
  | nil => simp at h
  | cons p rest ih =>
    by_cases hid : p.id = pid
    · exact ⟨{ p with delivered := true } :: rest, by simp [mark_package_delivered, hid]⟩
    · obtain ⟨q, hq, hqid⟩ := h
      rcases List.mem_cons.mp hq with rfl | hq
      · exact absurd hqid hid
      · obtain ⟨rest', hrest⟩ := ih ⟨q, hq, hqid⟩
        exact ⟨p :: rest', by simp [mark_package_delivered, hid, hrest]⟩

theorem set_package_pos_map_id {ps ps' : List Package} {pid : Nat} {new_pos : Pos}
    (h : set_package_pos ps pid new_pos = some ps') :
    ps'.map Package.id = ps.map Package.id := by
  obtain ⟨l₁, p, l₂, h₁, _, _, h₂⟩ := set_package_pos_eq_some h
  subst h₁ h₂; simp

theorem mark_package_delivered_map_id {ps ps' : List Package} {pid : Nat}
    (h : mark_package_delivered ps pid = some ps') :
    ps'.map Package.id = ps.map Package.id := by
  obtain ⟨l₁, p, l₂, h₁, _, _, h₂⟩ := mark_package_delivered_eq_some h
  subst h₁ h₂; simp

/-!  ### Characterization of the spawn loops  -/

theorem spawnPackagesLoop_map_id {cfg : EnvConfig} {agent : Pos} {walls : List Pos}
    {rng rng' : RNG} {i n : Nat} {ps : List Package}
    (h : spawnPackagesLoop cfg agent walls rng i n = some (ps, rng')) :
    ps.map Package.id = List.range' i n := by
  induction n generalizing rng rng' i ps with
  | zero =>
    simp only [spawnPackagesLoop, Option.some.injEq, Prod.mk.injEq] at h
    simp [← h.1]
  | succ n ih =>
    simp only [spawnPackagesLoop] at h
    match hsp : spawn_package_pos cfg rng agent walls with
    | none => simp [hsp] at h
    | some (pos, rng1) =>
      simp only [hsp] at h
      match hrec : spawnPackagesLoop cfg agent walls rng1 (i + 1) n with
      | none => simp [hrec] at h
      | some (rest, rng2) =>
        simp only [hrec, Option.some.injEq, Prod.mk.injEq] at h
        rw [← h.1, List.range']
        simpa using ih hrec

theorem spawnPackagesLoop_eq_none {cfg : EnvConfig} {agent : Pos} {walls : List Pos}
    {rng : RNG} {i n : Nat} :
    spawnPackagesLoop cfg agent walls rng i n = none ↔
      n ≠ 0 ∧ packageCandidates cfg agent (goalPos cfg) walls = [] := by
  induction n generalizing rng i with
  | zero => simp [spawnPackagesLoop]
  | succ n ih =>
    by_cases hc : packageCandidates cfg agent (goalPos cfg) walls = []
    · have hsp : spawn_package_pos cfg rng agent walls = none := by
        simp [spawn_package_pos, RNG.choice, hc]
      simp [spawnPackagesLoop, hsp, hc]
    · have hlen : (packageCandidates cfg agent (goalPos cfg) walls).length ≠ 0 := by
        simpa [List.length_eq_zero] using hc
      simp only [spawnPackagesLoop, spawn_package_pos, RNG.choice, hlen, dite_false]
      constructor
      · intro h
        match hrec : spawnPackagesLoop cfg agent walls
            { seed := rng.seed, draws := rng.draws + 1 } (i + 1) n with
        | none => exact absurd ((ih.mp hrec).2) hc
        | some (rest, rng2) => rw [hrec] at h; exact absurd h (by simp)
      · intro h; exact absurd h.2 hc

/-!  ### Inversion principles for the phases of `step`  -/

theorem dispatch_ok_inv {cfg : EnvConfig} {s : EnvState} {a : Int} {out : DispatchOut}
    (h : dispatch cfg s a = .ok out) :
    ((a = 0 ∨ a = 1 ∨ a = 2 ∨ a = 3) ∧
      ((can_enter cfg (move_target s.agent_pos a).1 (move_target s.agent_pos a).2 s.walls = true ∧
         out = ⟨{ s with agent_pos := move_target s.agent_pos a }, none, false, false, false, false⟩) ∨
       (can_enter cfg (move_target s.agent_pos a).1 (move_target s.agent_pos a).2 s.walls = false ∧
         out = ⟨s, none, true, false, false, false⟩))) ∨
    (a = 4 ∧ (∃ pid, s.carrying_id = some pid) ∧
      out = ⟨s, some "pickup_failed_already_carrying", false, false, false, false⟩) ∨
    (a = 4 ∧ s.carrying_id = none ∧ package_id_at_agent s = none ∧
      out = ⟨s, some "pickup_failed_no_package", false, false, false, false⟩) ∨
    (∃ pid ps, a = 4 ∧ s.carrying_id = none ∧ package_id_at_agent s = some pid ∧
      set_package_pos s.packages pid s.agent_pos = some ps ∧
      out = ⟨{ s with carrying_id := some pid, packages := ps }, some "pickup",
             false, false, true, false⟩) ∨
    (a = 5 ∧ s.carrying_id = none ∧
      out = ⟨s, some "drop_failed_not_carrying", false, false, false, false⟩) ∨
    (∃ pid ps ps2, a = 5 ∧ s.carrying_id = some pid ∧
      set_package_pos s.packages pid s.agent_pos = some ps ∧ s.agent_pos = goalPos cfg ∧
      mark_package_delivered ps pid = some ps2 ∧
      out = ⟨{ s with packages := ps2, carrying_id := none }, some "deliver",
             false, false, false, true⟩) ∨
    (∃ pid ps, a = 5 ∧ s.carrying_id = some pid ∧
      set_package_pos s.packages pid s.agent_pos = some ps ∧ s.agent_pos ≠ goalPos cfg ∧
      out = ⟨{ s with packages := ps, carrying_id := none }, some "drop",
             false, true, false, false⟩) := by
  by_cases hmv : a = 0 ∨ a = 1 ∨ a = 2 ∨ a = 3
  · have hcond : (a == 0 || a == 1 || a == 2 || a == 3) = true := by
      rcases hmv with rfl | rfl | rfl | rfl <;> rfl
    rw [dispatch, if_pos hcond] at h
    by_cases hce : can_enter cfg (move_target s.agent_pos a).1 (move_target s.agent_pos a).2
        s.walls = true
    · rw [if_pos hce] at h
      exact Or.inl ⟨hmv, Or.inl ⟨hce, by simpa using h.symm⟩⟩
    · rw [if_neg hce] at h
      exact Or.inl ⟨hmv, Or.inr ⟨by simpa using hce, by simpa using h.symm⟩⟩
  · have hcond : (a == 0 || a == 1 || a == 2 || a == 3) = false := by
      rcases Decidable.em (a = 0) with rfl | h0
      · exact absurd (Or.inl rfl) hmv
      rcases Decidable.em (a = 1) with rfl | h1
      · exact absurd (Or.inr (Or.inl rfl)) hmv
      rcases Decidable.em (a = 2) with rfl | h2
      · exact absurd (Or.inr (Or.inr (Or.inl rfl))) hmv
      rcases Decidable.em (a = 3) with rfl | h3
      · exact absurd (Or.inr (Or.inr (Or.inr rfl))) hmv
      simp [h0, h1, h2, h3]
    rw [dispatch, if_neg (by simp [hcond])] at h
    by_cases h4 : a = 4
    · subst h4
      rw [if_pos (show ((4 : Int) == 4) = true from rfl)] at h
      cases hc : s.carrying_id with
      | some pid =>
        rw [show s.is_carrying = true by simp [EnvState.is_carrying, hc], if_pos rfl] at h
        exact Or.inr (Or.inl ⟨rfl, ⟨pid, rfl⟩, by simpa using h.symm⟩)
      | none =>
        rw [show s.is_carrying = false by simp [EnvState.is_carrying, hc]] at h
        simp only [Bool.false_eq_true, if_false] at h
        match hp : package_id_at_agent s with
        | none =>
          simp only [hp] at h
          exact Or.inr (Or.inr (Or.inl ⟨rfl, rfl, rfl, by simpa using h.symm⟩))
        | some pid =>
          simp only [hp] at h
          match hsp : set_package_pos s.packages pid s.agent_pos with
          | none => simp [hsp] at h
          | some ps =>
            simp only [hsp] at h
            exact Or.inr (Or.inr (Or.inr (Or.inl
              ⟨pid, ps, rfl, rfl, rfl, hsp, by simpa using h.symm⟩)))
    · rw [if_neg (show ¬((a == 4) = true) by simp [h4])] at h
      by_cases h5 : a = 5
      · subst h5
        rw [if_pos (show ((5 : Int) == 5) = true from rfl)] at h
        cases hc : s.carrying_id with
        | none =>
          rw [show (!s.is_carrying) = true by simp [EnvState.is_carrying, hc], if_pos rfl] at h
          exact Or.inr (Or.inr (Or.inr (Or.inr (Or.inl ⟨rfl, rfl, by simpa using h.symm⟩))))
        | some pid =>
          rw [show (!s.is_carrying) = false by simp [EnvState.is_carrying, hc]] at h
          simp only [Bool.false_eq_true, if_false, hc] at h
          match hsp : set_package_pos s.packages pid s.agent_pos with
          | none => simp [hsp] at h
          | some ps =>
            simp only [hsp] at h
            by_cases hg : s.agent_pos = goalPos cfg
            · rw [if_pos (by simpa using hg)] at h
              match hmk : mark_package_delivered ps pid with
              | none => simp [hmk] at h
              | some ps2 =>
                simp only [hmk] at h
                exact Or.inr (Or.inr (Or.inr (Or.inr (Or.inr (Or.inl
                  ⟨pid, ps, ps2, rfl, rfl, hsp, hg, hmk, by simpa using h.symm⟩)))))
            · rw [if_neg (by simpa using hg)] at h
              exact Or.inr (Or.inr (Or.inr (Or.inr (Or.inr (Or.inr
                ⟨pid, ps, rfl, rfl, hsp, hg, by simpa using h.symm⟩)))))
      · rw [if_neg (show ¬((a == 5) = true) by simp [h5])] at h
        exact absurd h (by simp)

theorem carryAttach_none {s : EnvState} (hc : s.carrying_id = none) :
    carryAttach s = .ok s := by
  simp [carryAttach, EnvState.is_carrying, hc]

theorem carryAttach_some {s : EnvState} {pid : Nat} {ps : List Package}
    (hc : s.carrying_id = some pid)
    (hsp : set_package_pos s.packages pid s.agent_pos = some ps) :
    carryAttach s = .ok { s with packages := ps } := by
  rw [carryAttach, if_pos (by simp [EnvState.is_carrying, hc])]
  simp only [hc, hsp]

theorem carryAttach_ok_inv {s s2 : EnvState} (h : carryAttach s = .ok s2) :
    (s.carrying_id = none ∧ s2 = s) ∨
    (∃ pid ps, s.carrying_id = some pid ∧
      set_package_pos s.packages pid s.agent_pos = some ps ∧
      s2 = { s with packages := ps }) := by
  cases hc : s.carrying_id with
  | none =>
    rw [carryAttach_none hc] at h
    exact Or.inl ⟨rfl, by simpa using h.symm⟩
  | some pid =>
    rw [carryAttach, if_pos (by simp [EnvState.is_carrying, hc])] at h
    simp only [hc] at h
    match hsp : set_package_pos s.packages pid s.agent_pos with
    | none => simp [hsp] at h
    | some ps =>
      simp only [hsp] at h
      exact Or.inr ⟨pid, ps, rfl, hsp, by simpa using h.symm⟩

theorem step_ok_build {cfg : EnvConfig} {s : EnvState} {a : Int} {out : DispatchOut}
    {s2 : EnvState} (hd : dispatch cfg s a = .ok out) (hca : carryAttach out.s1 = .ok s2) :
    step cfg s a = .ok (finishStep cfg
      (rewardTotal cfg out.bumped out.dropped_wrong out.picked_up out.delivered_now)
      (if out.bumped then some "bump" else out.event) s2) := by
  rw [step]
  simp only [hd, hca]

theorem step_ok_decomp {cfg : EnvConfig} {s : EnvState} {a : Int} {s' : EnvState}
    {r : StepResult} (h : step cfg s a = .ok (s', r)) :
    ∃ out s2, dispatch cfg s a = .ok out ∧ carryAttach out.s1 = .ok s2 ∧
      s' = { s2 with step_count := s2.step_count + 1, battery := max (s2.battery - 1) 0 } ∧
      r = { obs := obs cfg s'
            reward := rewardTotal cfg out.bumped out.dropped_wrong out.picked_up out.delivered_now
            done := (termCheck cfg s').1
            info := { event := if out.bumped then some "bump" else out.event
                      done_reason := (termCheck cfg s').2 } } := by
  rw [step] at h
  match hd : dispatch cfg s a with
  | .error e => simp [hd] at h
  | .ok out =>
    simp only [hd] at h
    match hca : carryAttach out.s1 with
    | .error e => simp [hca] at h
    | .ok s2 =>
      simp only [hca, Except.ok.injEq] at h
      have h1 : s' = (finishStep cfg
          (rewardTotal cfg out.bumped out.dropped_wrong out.picked_up out.delivered_now)
          (if out.bumped then some "bump" else out.event) s2).1 := by rw [h]
      have h2 : r = (finishStep cfg
          (rewardTotal cfg out.bumped out.dropped_wrong out.picked_up out.delivered_now)
          (if out.bumped then some "bump" else out.event) s2).2 := by rw [h]
      refine ⟨out, s2, rfl, hca, ?_, ?_⟩
      · rw [h1]; exact rfl
      · rw [h2, h1]; exact rfl

/-!  ### The state invariant and its preservation  -/

theorem envInv_iff {s : EnvState} :
    EnvInv s = true ↔
      (s.packages.map Package.id).Nodup ∧
        ∀ pid, s.carrying_id = some pid →
          ∃ p ∈ s.packages, p.id = pid ∧ p.delivered = false ∧ p.pos = s.agent_pos := by
  unfold EnvInv
  cases hc : s.carrying_id with
  | none => simp
  | some pid =>
    simp only [Bool.and_eq_true, decide_eq_true_eq, List.any_eq_true, beq_iff_eq,
      Bool.not_eq_true', Option.some.injEq]
    constructor
    · rintro ⟨hnd, p, hp, ⟨hid, hdel⟩, hpos⟩
      exact ⟨hnd, fun pid' hpid' => ⟨p, hp, hpid' ▸ hid, hdel, hpos⟩⟩
    · rintro ⟨hnd, hcarry⟩
      obtain ⟨p, hp, hid, hdel, hpos⟩ := hcarry pid rfl
      exact ⟨hnd, p, hp, ⟨hid, hdel⟩, hpos⟩

theorem nodup_id_unique {l₁ : List Package} {p : Package} {l₂ : List Package}
    (hnd : ((l₁ ++ p :: l₂).map Package.id).Nodup)
    {q : Package} (hq : q ∈ l₁ ++ p :: l₂) (hid : q.id = p.id) : q = p := by
  rw [List.map_append, List.map_cons, List.nodup_append] at hnd
  obtain ⟨h₁, h₂, hdisj⟩ := hnd
  rcases List.mem_append.mp hq with hq | hq
  · exfalso
    have hq' : p.id ∈ l₁.map Package.id := by
      rw [← hid]; exact List.mem_map_of_mem _ hq
    exact hdisj hq' (List.mem_cons_self _ _)
  · rcases List.mem_cons.mp hq with rfl | hq
    · rfl
    · exfalso
      have hq' : p.id ∈ l₂.map Package.id := by
        rw [← hid]; exact List.mem_map_of_mem _ hq
      exact (List.nodup_cons.mp h₂).1 hq'

theorem mem_of_set_package_pos {ps ps' : List Package} {pid : Nat} {new_pos : Pos}
    (hnd : (ps.map Package.id).Nodup)
    (h : set_package_pos ps pid new_pos = some ps')
    {q : Package} (hq : q ∈ ps) (hqid : q.id = pid) :
    { q with pos := new_pos } ∈ ps' := by
  obtain ⟨l₁, p, l₂, hs, hl₁, hpid, hres⟩ := set_package_pos_eq_some h
  subst hs
  have hqp : q = p := nodup_id_unique hnd hq (by rw [hqid, hpid])
  subst hqp
  rw [hres]
  exact List.mem_append_right _ (List.mem_cons_self _ _)

theorem package_id_at_agent_some {s : EnvState} {pid : Nat}
    (h : package_id_at_agent s = some pid) :
    ∃ p ∈ s.packages, p.id = pid ∧ p.delivered = false ∧ p.pos = s.agent_pos := by
  unfold package_id_at_agent at h
  match hf : s.packages.find? (fun p => !p.delivered && decide (p.pos = s.agent_pos)) with
  | none => rw [hf] at h; simp at h
  | some p =>
    rw [hf] at h
    simp only [Option.map_some', Option.some.injEq] at h
    have hp := List.find?_some hf
    have hmem := List.mem_of_find?_eq_some hf
    simp only [Bool.and_eq_true, Bool.not_eq_true', decide_eq_true_eq] at hp
    exact ⟨p, hmem, h, hp.1, hp.2⟩

theorem pkgStep_refl (p : Package) : PkgStep p p :=
  ⟨rfl, fun h => ⟨h, rfl⟩⟩

theorem forall₂_pkgStep_refl (l : List Package) : List.Forall₂ PkgStep l l :=
  List.forall₂_same.mpr (fun p _ => pkgStep_refl p)

theorem forall₂_pkgStep_trans {l₁ l₂ l₃ : List Package}
    (h₁ : List.Forall₂ PkgStep l₁ l₂) (h₂ : List.Forall₂ PkgStep l₂ l₃) :
    List.Forall₂ PkgStep l₁ l₃ := by
  induction h₁ generalizing l₃ with
  | nil => cases h₂; exact List.Forall₂.nil
  | cons hpq _ ih =>
    cases h₂ with
    | cons hqr htl =>
      refine List.Forall₂.cons ⟨hpq.1.trans hqr.1, fun hd => ?_⟩ (ih htl)
      obtain ⟨hd₂, hp₂⟩ := hpq.2 hd
      obtain ⟨hd₃, hp₃⟩ := hqr.2 hd₂
      exact ⟨hd₃, hp₃.trans hp₂⟩

theorem forall₂_pkgStep_of_split {l₁ l₂ : List Package} {p q : Package}
    (hid : p.id = q.id) (hdel : p.delivered = true → q.delivered = true ∧ q.pos = p.pos) :
    List.Forall₂ PkgStep (l₁ ++ p :: l₂) (l₁ ++ q :: l₂) :=
  List.rel_append (forall₂_pkgStep_refl l₁)
    (List.Forall₂.cons ⟨hid, hdel⟩ (forall₂_pkgStep_refl l₂))

/-- Updating via `set_package_pos` at the id of an undelivered package (unique by `Nodup`)
is a `PkgStep` evolution: no delivered package moves. -/
theorem set_package_pos_pkgStep {ps ps' : List Package} {pid : Nat} {new_pos : Pos}
    (hnd : (ps.map Package.id).Nodup)
    (h : set_package_pos ps pid new_pos = some ps')
    {q : Package} (hq : q ∈ ps) (hqid : q.id = pid) (hqdel : q.delivered = false) :
    List.Forall₂ PkgStep ps ps' := by
  obtain ⟨l₁, p, l₂, hs, hl₁, hpid, hres⟩ := set_package_pos_eq_some h
  subst hs
  have hqp : q = p := nodup_id_unique hnd hq (by rw [hqid, hpid])
  subst hqp
  rw [hres]
  exact forall₂_pkgStep_of_split rfl (fun hd => absurd hd (by simp [hqdel]))

/-- Marking via `mark_package_delivered` is always a `PkgStep` evolution: it only turns a
delivered flag on, never moves a package. -/
theorem mark_package_delivered_pkgStep {ps ps' : List Package} {pid : Nat}
    (h : mark_package_delivered ps pid = some ps') :
    List.Forall₂ PkgStep ps ps' := by
  obtain ⟨l₁, p, l₂, hs, hl₁, hpid, hres⟩ := mark_package_delivered_eq_some h
  subst hs
  rw [hres]
  exact forall₂_pkgStep_of_split rfl (fun hd => ⟨rfl, rfl⟩)

theorem carryAttach_preserves {s1 s2 : EnvState}
    (hnd : (s1.packages.map Package.id).Nodup)
    (hcarry : ∀ pid, s1.carrying_id = some pid →
      ∃ p ∈ s1.packages, p.id = pid ∧ p.delivered = false)
    (h : carryAttach s1 = .ok s2) :
    ((s2.packages.map Package.id).Nodup ∧
      ∀ pid, s2.carrying_id = some pid →
        ∃ p ∈ s2.packages, p.id = pid ∧ p.delivered = false ∧ p.pos = s2.agent_pos) ∧
    List.Forall₂ PkgStep s1.packages s2.packages := by
  rcases carryAttach_ok_inv h with ⟨hc, rfl⟩ | ⟨pid, ps, hc, hsp, rfl⟩
  · refine ⟨⟨hnd, ?_⟩, forall₂_pkgStep_refl _⟩
    intro pid hpid
    rw [hc] at hpid
    exact Option.noConfusion hpid
  · obtain ⟨q, hq, hqid, hqdel⟩ := hcarry pid hc
    refine ⟨⟨?_, ?_⟩, ?_⟩
    · show (ps.map Package.id).Nodup
      rw [set_package_pos_map_id hsp]; exact hnd
    · intro pid' hpid'
      have hpid'' : s1.carrying_id = some pid' := hpid'
      rw [hc] at hpid''
      obtain rfl : pid = pid' := by simpa using hpid''
      refine ⟨{ q with pos := s1.agent_pos }, mem_of_set_package_pos hnd hsp hq hqid,
        by simpa using hqid, by simpa using hqdel, rfl⟩
    · exact set_package_pos_pkgStep hnd hsp hq hqid hqdel

theorem step_preserves {cfg : EnvConfig} {s : EnvState} {a : Int} {s' : EnvState}
    {r : StepResult} (hinv : EnvInv s = true) (h : step cfg s a = .ok (s', r)) :
    EnvInv s' = true ∧ List.Forall₂ PkgStep s.packages s'.packages := by
  rw [envInv_iff] at hinv
  obtain ⟨hnd, hcarry⟩ := hinv
  obtain ⟨out, s2, hd, hca, hs', -⟩ := step_ok_decomp h
  have hcarry' : ∀ pid, s.carrying_id = some pid →
      ∃ p ∈ s.packages, p.id = pid ∧ p.delivered = false := by
    intro pid hpid
    obtain ⟨p, hp, h1, h2, -⟩ := hcarry pid hpid
    exact ⟨p, hp, h1, h2⟩
  have hgoal : ((s2.packages.map Package.id).Nodup ∧
      ∀ pid, s2.carrying_id = some pid →
        ∃ p ∈ s2.packages, p.id = pid ∧ p.delivered = false ∧ p.pos = s2.agent_pos) ∧
      List.Forall₂ PkgStep s.packages s2.packages := by
    rcases dispatch_ok_inv hd with
      ⟨hmv, hAB⟩ | ⟨h4, ⟨pid, hc⟩, hout⟩ | ⟨h4, hc, hp, hout⟩ |
      ⟨pid, ps1, h4, hc, hp, hsp, hout⟩ | ⟨h5, hc, hout⟩ |
      ⟨pid, ps1, ps2', h5, hc, hsp, hg, hmk, hout⟩ | ⟨pid, ps1, h5, hc, hsp, hg, hout⟩
    · rcases hAB with ⟨hce, hout⟩ | ⟨hce, hout⟩
      · subst hout
        exact @carryAttach_preserves { s with agent_pos := move_target s.agent_pos a } s2
          hnd hcarry' hca
      · subst hout
        exact carryAttach_preserves hnd hcarry' hca
    · subst hout
      exact carryAttach_preserves hnd hcarry' hca
    · subst hout
      exact carryAttach_preserves hnd hcarry' hca
    · subst hout
      obtain ⟨q, hq, hqid, hqdel, hqpos⟩ := package_id_at_agent_some hp
      have hnd1 : (ps1.map Package.id).Nodup := by
        rw [set_package_pos_map_id hsp]; exact hnd
      have hcarry1 : ∀ pid', (some pid : Option Nat) = some pid' →
          ∃ p ∈ ps1, p.id = pid' ∧ p.delivered = false := by
        intro pid' hpid'
        obtain rfl : pid = pid' := by simpa using hpid'
        exact ⟨{ q with pos := s.agent_pos }, mem_of_set_package_pos hnd hsp hq hqid,
          by simpa using hqid, by simpa using hqdel⟩
      have hstep1 : List.Forall₂ PkgStep s.packages ps1 :=
        set_package_pos_pkgStep hnd hsp hq hqid hqdel
      obtain ⟨hfin, hrel⟩ := carryAttach_preserves hnd1 hcarry1 hca
      exact ⟨hfin, forall₂_pkgStep_trans hstep1 hrel⟩
    · subst hout
      exact carryAttach_preserves hnd hcarry' hca
    · subst hout
      obtain ⟨q, hq, hqid, hqdel⟩ := hcarry' pid hc
      have hnd2 : (ps2'.map Package.id).Nodup := by
        rw [mark_package_delivered_map_id hmk, set_package_pos_map_id hsp]; exact hnd
      have hcarry2 : ∀ pid', (none : Option Nat) = some pid' →
          ∃ p ∈ ps2', p.id = pid' ∧ p.delivered = false := by
        intro pid' hpid'
        exact Option.noConfusion hpid'
      have hstep1 : List.Forall₂ PkgStep s.packages ps1 :=
        set_package_pos_pkgStep hnd hsp hq hqid hqdel
      have hstep2 : List.Forall₂ PkgStep ps1 ps2' := mark_package_delivered_pkgStep hmk
      obtain ⟨hfin, hrel⟩ := carryAttach_preserves hnd2 hcarry2 hca
      exact ⟨hfin, forall₂_pkgStep_trans (forall₂_pkgStep_trans hstep1 hstep2) hrel⟩
    · subst hout
      obtain ⟨q, hq, hqid, hqdel⟩ := hcarry' pid hc
      have hnd1 : (ps1.map Package.id).Nodup := by
        rw [set_package_pos_map_id hsp]; exact hnd
      have hcarry1 : ∀ pid', (none : Option Nat) = some pid' →
          ∃ p ∈ ps1, p.id = pid' ∧ p.delivered = false := by
        intro pid' hpid'
        exact Option.noConfusion hpid'
      have hstep1 : List.Forall₂ PkgStep s.packages ps1 :=
        set_package_pos_pkgStep hnd hsp hq hqid hqdel
      obtain ⟨hfin, hrel⟩ := carryAttach_preserves hnd1 hcarry1 hca
      exact ⟨hfin, forall₂_pkgStep_trans hstep1 hrel⟩
  constructor
  · rw [envInv_iff]
    have h1 : s'.packages = s2.packages := by rw [hs']
    have h2 : s'.carrying_id = s2.carrying_id := by rw [hs']
    have h3 : s'.agent_pos = s2.agent_pos := by rw [hs']
    rw [h1, h2, h3]
    exact hgoal.1
  · have h1 : s'.packages = s2.packages := by rw [hs']
    rw [h1]
    exact hgoal.2

/-- Decomposition of a successful `reset`: the spawned packages and the state
actually built. -/
theorem reset_eq_some {cfg : EnvConfig} {seed : Option Int} {s : EnvState} {o : Obs}
    (h : reset cfg seed = some (s, o)) :
    ∃ packages rng2,
      spawnPackagesLoop cfg (0, 0) (spawn_walls cfg (RNG.from_seed seed) (0, 0)).1
        (spawn_walls cfg (RNG.from_seed seed) (0, 0)).2 0 cfg.num_packages
        = some (packages, rng2) ∧
      s = { step_count := 0, agent_pos := (0, 0), carrying_id := none,
            battery := cfg.battery_capacity, packages := packages,
            walls := (spawn_walls cfg (RNG.from_seed seed) (0, 0)).1 } ∧
      o = obs cfg s := by
  rw [reset, Option.map_eq_some'] at h
  obtain ⟨⟨packages, rng2⟩, hpk, hf⟩ := h
  simp only [Prod.mk.injEq] at hf
  exact ⟨packages, rng2, hpk, hf.1.symm, by rw [← hf.1]; exact hf.2.symm⟩

theorem reset_envInv {cfg : EnvConfig} {seed : Option Int} {s : EnvState} {o : Obs}
    (h : reset cfg seed = some (s, o)) : EnvInv s = true := by
  obtain ⟨packages, rng2, hpk, hs, -⟩ := reset_eq_some h
  rw [envInv_iff, hs]
  refine ⟨?_, ?_⟩
  · show (packages.map Package.id).Nodup
    rw [spawnPackagesLoop_map_id hpk]
    exact List.nodup_range' 0 cfg.num_packages
  · intro pid hpid
    exact Option.noConfusion hpid

theorem stepState_ok {cfg : EnvConfig} {s : EnvState} {a : Int} {s' : EnvState}
    (h : stepState cfg s a = .ok s') : ∃ r, step cfg s a = .ok (s', r) := by
  rw [stepState] at h
  match hst : step cfg s a with
  | .error e => rw [hst] at h; exact absurd h (by simp [Except.map])
  | .ok (t, r) =>
    rw [hst] at h
    simp only [Except.map, Except.ok.injEq] at h
    exact ⟨r, by rw [h]⟩

theorem reachable_envInv {cfg : EnvConfig} {s : EnvState} (h : Reachable cfg s) :
    EnvInv s = true := by
  induction h with
  | reset seed s o h => exact reset_envInv h
  | step s a s' hs h ih =>
    obtain ⟨r, hr⟩ := stepState_ok h
    exact (step_preserves ih hr).1

theorem runStates_preserves {cfg : EnvConfig} {s : EnvState} {acts : List Int}
    {s' : EnvState} (hinv : EnvInv s = true) (h : runStates cfg s acts = .ok s') :
    EnvInv s' = true ∧ List.Forall₂ PkgStep s.packages s'.packages := by
  induction acts generalizing s with
  | nil =>
    simp only [runStates, Except.ok.injEq] at h
    subst h
    exact ⟨hinv, forall₂_pkgStep_refl _⟩
  | cons a rest ih =>
    rw [runStates] at h
    match hst : stepState cfg s a with
    | .error e => simp [hst] at h
    | .ok s1 =>
      simp only [hst] at h
      obtain ⟨r, hr⟩ := stepState_ok hst
      obtain ⟨hinv1, hrel1⟩ := step_preserves hinv hr
      obtain ⟨hinv2, hrel2⟩ := ih hinv1 h
      exact ⟨hinv2, forall₂_pkgStep_trans hrel1 hrel2⟩

theorem stepDoneReason_ok {cfg : EnvConfig} {s : EnvState} {a : Int} {s' : EnvState}
    {d : Bool} {dr : Option String} (h : stepDoneReason cfg s a = .ok (s', d, dr)) :
    ∃ r, step cfg s a = .ok (s', r) ∧ r.done = d ∧ r.info.done_reason = dr := by
  rw [stepDoneReason] at h
  match hst : step cfg s a with
  | .error e => rw [hst] at h; exact absurd h (by simp [Except.map])
  | .ok (t, r) =>
    rw [hst] at h
    simp only [Except.map, Except.ok.injEq, Prod.mk.injEq] at h
    exact ⟨r, by rw [h.1], h.2.1, h.2.2⟩

/-!  ### Forward computations for the drop action  -/

theorem dispatch_drop_notCarrying {cfg : EnvConfig} {s : EnvState}
    (hc : s.carrying_id = none) :
    dispatch cfg s 5 = .ok ⟨s, some "drop_failed_not_carrying", false, false, false, false⟩ := by
  rw [dispatch, if_neg (by decide), if_neg (by decide), if_pos (by decide),
    if_pos (show (!s.is_carrying) = true by simp [EnvState.is_carrying, hc])]

theorem dispatch_drop_deliver {cfg : EnvConfig} {s : EnvState} {pid : Nat}
    {ps ps2 : List Package} (hc : s.carrying_id = some pid)
    (hsp : set_package_pos s.packages pid s.agent_pos = some ps)
    (hg : s.agent_pos = goalPos cfg)
    (hmk : mark_package_delivered ps pid = some ps2) :
    dispatch cfg s 5 = .ok ⟨{ s with packages := ps2, carrying_id := none },
      some "deliver", false, false, false, true⟩ := by
  rw [dispatch, if_neg (by decide), if_neg (by decide), if_pos (by decide),
    if_neg (show ¬(!s.is_carrying) = true by simp [EnvState.is_carrying, hc])]
  simp only [hc, hsp]
  rw [if_pos (show (s.agent_pos == goalPos cfg) = true by simpa using hg)]
  simp only [hmk]

theorem dispatch_drop_wrong {cfg : EnvConfig} {s : EnvState} {pid : Nat}
    {ps : List Package} (hc : s.carrying_id = some pid)
    (hsp : set_package_pos s.packages pid s.agent_pos = some ps)
    (hg : s.agent_pos ≠ goalPos cfg) :
    dispatch cfg s 5 = .ok ⟨{ s with packages := ps, carrying_id := none },
      some "drop", false, true, false, false⟩ := by
  rw [dispatch, if_neg (by decide), if_neg (by decide), if_pos (by decide),
    if_neg (show ¬(!s.is_carrying) = true by simp [EnvState.is_carrying, hc])]
  simp only [hc, hsp]
  rw [if_neg (show ¬(s.agent_pos == goalPos cfg) = true by simpa using hg)]

theorem mark_package_delivered_append {l₁ : List Package} {p : Package}
    {l₂ : List Package} {pid : Nat}
    (hl₁ : ∀ q ∈ l₁, q.id ≠ pid) (hp : p.id = pid) :
    mark_package_delivered (l₁ ++ p :: l₂) pid
      = some (l₁ ++ { p with delivered := true } :: l₂) := by
  induction l₁ with
  | nil => simp [mark_package_delivered, hp]
  | cons q l₁ ih =>
    have hq : q.id ≠ pid := hl₁ q (by simp)
    have ih' := ih (fun x hx => hl₁ x (by simp [hx]))
    simp [mark_package_delivered, hq, ih']

theorem spawnWallsSpecLoop_eq (rng : RNG) (candidates walls : List Pos) (k : Nat) :
    spawnWallsSpecLoop rng candidates walls k = spawnWallsLoop rng candidates walls k := by
  induction k generalizing rng candidates walls with
  | zero => rfl
  | succ k ih =>
    rw [spawnWallsSpecLoop, spawnWallsLoop]
    match hch : rng.choice candidates with
    | none => rfl
    | some (pos, rng') => exact ih rng' (candidates.erase pos) (walls ++ [pos])

theorem mulTrunc_eq_floor {n : Nat} {q : ℚ} (hq : 0 ≤ q) :
    mulTrunc n q = ⌊(n : ℚ) * q⌋ := by
  have hnum : 0 ≤ q.num := Rat.num_nonneg.mpr hq
  have h1 : (n : ℚ) * q = ((n * q.num : Int) : ℚ) / ((q.den : Nat) : ℚ) := by
    conv_lhs => rw [← Rat.num_div_den q]
    push_cast
    ring
  rw [mulTrunc, h1, Rat.floor_intCast_div_natCast]
  exact Int.tdiv_eq_ediv (by positivity) (by positivity)

theorem dispatch_never_inconsistent (cfg : EnvConfig) (s : EnvState) (a : Int) :
    raisesInconsistent (dispatch cfg s a) = false := by
  rw [dispatch]
  by_cases h03 : (a == 0 || a == 1 || a == 2 || a == 3) = true
  · rw [if_pos h03]
    dsimp only
    split
    · rfl
    · rfl
  · rw [if_neg h03]
    by_cases h4 : (a == 4) = true
    · rw [if_pos h4]
      by_cases hc : s.is_carrying = true
      · rw [if_pos hc]; rfl
      · rw [if_neg hc]
        match hp : package_id_at_agent s with
        | none => rfl
        | some pid =>
          dsimp only
          match hsp : set_package_pos s.packages pid s.agent_pos with
          | none => rfl
          | some ps => rfl
    · rw [if_neg h4]
      by_cases h5 : (a == 5) = true
      · rw [if_pos h5]
        by_cases hnc : (!s.is_carrying) = true
        · rw [if_pos hnc]; rfl
        · rw [if_neg hnc]
          match hcid : s.carrying_id with
          | none =>
            exfalso
            apply hnc
            simp [EnvState.is_carrying, hcid]
          | some pid =>
            dsimp only
            match hsp : set_package_pos s.packages pid s.agent_pos with
            | none => rfl
            | some ps =>
              dsimp only
              by_cases hg : (s.agent_pos == goalPos cfg) = true
              · rw [if_pos hg]
                match hmk : mark_package_delivered ps pid with
                | none => rfl
                | some ps2 => rfl
              · rw [if_neg hg]; rfl
      · rw [if_neg h5]; rfl

theorem carryAttach_never_inconsistent (s : EnvState) :
    raisesInconsistent (carryAttach s) = false := by
  rw [carryAttach]
  by_cases hc : s.is_carrying = true
  · rw [if_pos hc]
    match hcid : s.carrying_id with
    | none =>
      exfalso
      rw [EnvState.is_carrying, hcid] at hc
      simp at hc
    | some pid =>
      dsimp only
      match hsp : set_package_pos s.packages pid s.agent_pos with
      | none => rfl
      | some ps => rfl
  · rw [if_neg hc]; rfl

/-!  ### The claims  -/

/-- C1: for every seed and every finite sequence of actions, two independently
constructed environments with the same configuration that each run `reset`
with the same seed followed by the same actions produce identical sequences of
(observation, reward, done, info) tuples.  The whole interaction `runEpisode`
is a pure function of the configuration, the seed and the action list — per
`utils.py` the only randomness is the per-instance `random.Random(seed)`, a
deterministic function of the seed, so no ambient randomness can influence any
result. -/
theorem runEpisode_deterministic (cfg : EnvConfig) (seed₁ seed₂ : Option Int)
    (A₁ A₂ : List Int) (hseed : seed₁ = seed₂) (hacts : A₁ = A₂) :
    runEpisode cfg seed₁ A₁ = runEpisode cfg seed₂ A₂ := by
  rw [hseed, hacts]

theorem runEpisode_deterministic_witness :
    runEpisode testCfg (some 123) [3, 3, 1, 1, 4, 3, 1, 5, 0, 2, 2]
      = runEpisode testCfg (some 123) [3, 3, 1, 1, 4, 3, 1, 5, 0, 2, 2] :=
  runEpisode_deterministic testCfg (some 123) (some 123)
    [3, 3, 1, 1, 4, 3, 1, 5, 0, 2, 2] [3, 3, 1, 1, 4, 3, 1, 5, 0, 2, 2] rfl rfl

/-- C2: after the counter/battery update of a step, termination is decided in
the fixed priority order max steps → battery empty → all delivered; the first
matching condition alone determines `done` and the reported `done_reason`, and
on a non-terminal step no reason is present. -/
theorem step_termination_priority (cfg : EnvConfig) (s : EnvState) (a : Int)
    (s' : EnvState) (d : Bool) (dr : Option String)
    (h : stepDoneReason cfg s a = .ok (s', d, dr)) :
    ((s'.step_count : Int) ≥ cfg.max_steps → d = true ∧ dr = some "max_steps") ∧
    (¬((s'.step_count : Int) ≥ cfg.max_steps) → s'.battery = 0 →
      d = true ∧ dr = some "battery_empty") ∧
    (¬((s'.step_count : Int) ≥ cfg.max_steps) → s'.battery ≠ 0 →
      all_delivered s' = true → d = true ∧ dr = some "all_delivered") ∧
    (¬((s'.step_count : Int) ≥ cfg.max_steps) → s'.battery ≠ 0 →
      all_delivered s' = false → d = false ∧ dr = none) := by
  obtain ⟨r, hst, hd, hdr⟩ := stepDoneReason_ok h
  obtain ⟨out, s2, -, -, -, hr⟩ := step_ok_decomp hst
  have hd' : d = (termCheck cfg s').1 := by rw [← hd, hr]
  have hdr' : dr = (termCheck cfg s').2 := by rw [← hdr, hr]
  subst hd'
  subst hdr'
  refine ⟨?_, ?_, ?_, ?_⟩
  · intro h1
    rw [termCheck, if_pos h1]
    exact ⟨rfl, rfl⟩
  · intro h1 h2
    rw [termCheck, if_neg h1, if_pos (by simpa using h2)]
    exact ⟨rfl, rfl⟩
  · intro h1 h2 h3
    rw [termCheck, if_neg h1, if_neg (by simpa using h2), if_pos h3]
    exact ⟨rfl, rfl⟩
  · intro h1 h2 h3
    rw [termCheck, if_neg h1, if_neg (by simpa using h2), if_neg (by simp [h3])]
    exact ⟨rfl, rfl⟩

theorem step_termination_priority_witness :
    (((tS2.step_count : Int) ≥ testCfg.max_steps →
        false = true ∧ (none : Option String) = some "max_steps") ∧
      (¬((tS2.step_count : Int) ≥ testCfg.max_steps) → tS2.battery = 0 →
        false = true ∧ (none : Option String) = some "battery_empty") ∧
      (¬((tS2.step_count : Int) ≥ testCfg.max_steps) → tS2.battery ≠ 0 →
        all_delivered tS2 = true → false = true ∧ (none : Option String) = some "all_delivered") ∧
      (¬((tS2.step_count : Int) ≥ testCfg.max_steps) → tS2.battery ≠ 0 →
        all_delivered tS2 = false → false = false ∧ (none : Option String) = none)) :=
  step_termination_priority testCfg tS1 4 tS2 false none (by decide)

/-- C8: `reset` with seed `None` produces exactly the same observation and the
same behaviour on every subsequent action sequence as `reset` with seed 0 on
an identically configured environment, because `RNG.from_seed` replaces a
missing seed by the fixed default 0. -/
theorem reset_seed_none_eq_seed_zero (cfg : EnvConfig) (acts : List Int) :
    runEpisode cfg none acts = runEpisode cfg (some 0) acts := rfl

/-- C9: for every configuration and seed, `reset` places the agent at `(0, 0)`
and the goal cell is the fixed constant `(width - 1, height - 1)` computed at
construction time — facts the spec never states. -/
theorem reset_agent_start_and_goal (cfg : EnvConfig) (seed : Option Int)
    (s : EnvState) (o : Obs) (h : reset cfg seed = some (s, o)) :
    s.agent_pos = (0, 0) ∧ o.agent_pos = (0, 0) ∧
    goalPos cfg = ((cfg.width : Int) - 1, (cfg.height : Int) - 1) ∧
    o.goal_pos = ((cfg.width : Int) - 1, (cfg.height : Int) - 1) := by
  obtain ⟨packages, rng2, -, hs, ho⟩ := reset_eq_some h
  subst ho
  subst hs
  exact ⟨rfl, rfl, rfl, rfl⟩

theorem reset_agent_start_and_goal_witness :
    tS0.agent_pos = (0, 0) ∧ tO0.agent_pos = (0, 0) ∧
    goalPos testCfg = ((testCfg.width : Int) - 1, (testCfg.height : Int) - 1) ∧
    tO0.goal_pos = ((testCfg.width : Int) - 1, (testCfg.height : Int) - 1) :=
  reset_agent_start_and_goal testCfg none tS0 tO0 (by decide)

/-- C4: in every state observable between calls — after `reset` and after each
`step` return — if the carrying id equals `pid` then the package with id `pid`
sits exactly at the agent's position; in particular a movement step taken
while carrying moves the carried package together with the agent (the
carry-consistency pass of `step` re-attaches it every step). -/
theorem carried_package_at_agent (cfg : EnvConfig) (s : EnvState) (pid : Nat)
    (hr : Reachable cfg s) (hc : s.carrying_id = some pid) :
    ∃ p ∈ s.packages, p.id = pid ∧ p.pos = s.agent_pos := by
  have hinv := reachable_envInv hr
  rw [envInv_iff] at hinv
  obtain ⟨p, hp, hid, -, hpos⟩ := hinv.2 pid hc
  exact ⟨p, hp, hid, hpos⟩

theorem carried_package_at_agent_witness :
    ∃ p ∈ tS2.packages, p.id = 0 ∧ p.pos = tS2.agent_pos :=
  carried_package_at_agent testCfg tS2 0
    (Reachable.step tS1 4 tS2
      (Reachable.step tS0 3 tS1 (Reachable.reset none tS0 tO0 (by decide)) (by decide))
      (by decide))
    (by decide)

/-- C7: within one episode, for every package: once its delivered flag is true
after some step, it remains true after every later step and its position never
changes again — stated as a `Forall₂` relation between the packages of any
reachable state and the packages after any further run of steps. -/
theorem delivered_monotone (cfg : EnvConfig) (s : EnvState) (acts : List Int)
    (s' : EnvState) (hr : Reachable cfg s) (h : runStates cfg s acts = .ok s') :
    List.Forall₂
      (fun p q => p.id = q.id ∧ (p.delivered = true → q.delivered = true ∧ q.pos = p.pos))
      s.packages s'.packages :=
  (runStates_preserves (reachable_envInv hr) h).2

theorem delivered_monotone_witness :
    List.Forall₂
      (fun p q => p.id = q.id ∧ (p.delivered = true → q.delivered = true ∧ q.pos = p.pos))
      tS4.packages tS5.packages :=
  delivered_monotone testCfg tS4 [0] tS5
    (Reachable.step tS3 5 tS4
      (Reachable.step tS2 3 tS3
        (Reachable.step tS1 4 tS2
          (Reachable.step tS0 3 tS1 (Reachable.reset none tS0 tO0 (by decide)) (by decide))
          (by decide))
        (by decide))
      (by decide))
    (by decide)

/-- C5: wall placement at reset enumerates candidate cells in row-major order
(increasing y, then increasing x) excluding exactly the agent start cell and
the goal cell, sets the target count to `⌊candidates × wall_fraction⌋`, and
places walls by the draw-uniformly-and-remove loop, stopping when the target
is reached or the candidates are exhausted: the source's `_spawn_walls`
coincides with the procedure `spawnWallsSpec` worded from the spec (its `int`
truncation equals the spec's floor whenever the fraction is non-negative). -/
theorem spawn_walls_matches_spec (cfg : EnvConfig) (rng : RNG) (agent : Pos)
    (h : 0 ≤ cfg.wall_fraction) :
    spawn_walls cfg rng agent = spawnWallsSpec cfg rng agent := by
  simp only [spawn_walls, spawnWallsSpec, wallCandidates]
  rw [spawnWallsSpecLoop_eq, mulTrunc_eq_floor h]

theorem spawn_walls_matches_spec_witness :
    spawn_walls testCfg (RNG.from_seed none) (0, 0)
      = spawnWallsSpec testCfg (RNG.from_seed none) (0, 0) :=
  spawn_walls_matches_spec testCfg (RNG.from_seed none) (0, 0) (by decide)

/-- C6: `reset` fails (the `IndexError` of a `choice` on an empty sequence)
exactly when at least one package must be placed and the package candidate
list — the grid minus agent start, goal and walls — is empty; in no other
situation is a placement skipped into a successful reset.  (Wall placement
stops at candidate exhaustion by design, §4.2, so a wall draw is never
required from an empty pool.) -/
theorem reset_fails_iff_empty_candidates (cfg : EnvConfig) (seed : Option Int) :
    reset cfg seed = none ↔
      (cfg.num_packages ≠ 0 ∧
        packageCandidates cfg (0, 0) (goalPos cfg)
          (spawn_walls cfg (RNG.from_seed seed) (0, 0)).1 = []) := by
  rw [reset, Option.map_eq_none']
  exact spawnPackagesLoop_eq_none

/-- C10: the two defensive `RuntimeError` branches of `step` that fire when
`is_carrying` is true but `carrying_id` is `None` are unreachable for every
input, because `is_carrying` is defined as `carrying_id is not None`
(`state.py`); `step` never raises this "Inconsistent state" error. -/
theorem step_never_raises_inconsistent (cfg : EnvConfig) (s : EnvState) (a : Int) :
    raisesInconsistent (step cfg s a) = false := by
  rw [step]
  match hd : dispatch cfg s a with
  | .error e =>
    have hdn := dispatch_never_inconsistent cfg s a
    rw [hd] at hdn
    dsimp only
    cases e
    · rfl
    · exact absurd hdn (by decide)
    · rfl
  | .ok out =>
    dsimp only
    match hca : carryAttach out.s1 with
    | .error e =>
      have hcn := carryAttach_never_inconsistent out.s1
      rw [hca] at hcn
      dsimp only
      cases e
      · rfl
      · exact absurd hcn (by decide)
      · rfl
    | .ok s2 => rfl

/-- C3: semantics of the drop action (5) on a well-formed state.  Not
carrying: the event is "drop_failed_not_carrying" and nothing but the step
counter and battery changes.  Carrying on the goal cell: the carried package
is marked delivered at the agent's position, carrying is cleared, the event is
"deliver" and the reward is the per-step penalty plus the delivery reward.
Carrying elsewhere: the carried package's position becomes the agent's
position with delivered still false, carrying is cleared, the event is "drop"
and the reward is the per-step penalty plus the wrong-drop penalty. -/
theorem step_drop_semantics (cfg : EnvConfig) (s : EnvState) (hinv : EnvInv s = true) :
    (s.carrying_id = none →
      ∃ s' r, step cfg s 5 = .ok (s', r) ∧
        r.info.event = some "drop_failed_not_carrying" ∧
        s'.agent_pos = s.agent_pos ∧ s'.carrying_id = none ∧
        s'.packages = s.packages ∧ s'.walls = s.walls ∧
        s'.step_count = s.step_count + 1 ∧ s'.battery = max (s.battery - 1) 0) ∧
    (∀ pid, s.carrying_id = some pid → s.agent_pos = goalPos cfg →
      ∃ s' r l₁ p l₂, step cfg s 5 = .ok (s', r) ∧
        s.packages = l₁ ++ p :: l₂ ∧ p.id = pid ∧
        s'.packages = l₁ ++ { p with pos := s.agent_pos, delivered := true } :: l₂ ∧
        s'.carrying_id = none ∧ r.info.event = some "deliver" ∧
        r.reward = cfg.penalty_step + cfg.reward_deliver) ∧
    (∀ pid, s.carrying_id = some pid → s.agent_pos ≠ goalPos cfg →
      ∃ s' r l₁ p l₂, step cfg s 5 = .ok (s', r) ∧
        s.packages = l₁ ++ p :: l₂ ∧ p.id = pid ∧ p.delivered = false ∧
        s'.packages = l₁ ++ { p with pos := s.agent_pos } :: l₂ ∧
        s'.carrying_id = none ∧ r.info.event = some "drop" ∧
        r.reward = cfg.penalty_step + cfg.penalty_drop_wrong) := by
  rw [envInv_iff] at hinv
  obtain ⟨hnd, hcarry⟩ := hinv
  refine ⟨?_, ?_, ?_⟩
  · intro hc
    have hd := @dispatch_drop_notCarrying cfg s hc
    refine ⟨_, _, step_ok_build hd (carryAttach_none hc), rfl, rfl, hc, rfl, rfl, rfl, rfl⟩
  · intro pid hc hg
    obtain ⟨q, hq, hqid, hqdel, -⟩ := hcarry pid hc
    obtain ⟨ps1, hsp⟩ := set_package_pos_isSome s.agent_pos ⟨q, hq, hqid⟩
    obtain ⟨l₁, p, l₂, hsplit, hl₁, hpid, hps1⟩ := set_package_pos_eq_some hsp
    subst hps1
    have hmk := @mark_package_delivered_append l₁ { p with pos := s.agent_pos } l₂ pid hl₁
      hpid
    have hd := dispatch_drop_deliver hc hsp hg hmk
    refine ⟨_, _, l₁, p, l₂, step_ok_build hd (carryAttach_none rfl), hsplit, hpid,
      rfl, rfl, rfl, ?_⟩
    simp [rewardTotal]
  · intro pid hc hg
    obtain ⟨q, hq, hqid, hqdel, -⟩ := hcarry pid hc
    obtain ⟨ps1, hsp⟩ := set_package_pos_isSome s.agent_pos ⟨q, hq, hqid⟩
    obtain ⟨l₁, p, l₂, hsplit, hl₁, hpid, hps1⟩ := set_package_pos_eq_some hsp
    subst hps1
    have hpdel : p.delivered = false := by
      have hnd' : ((l₁ ++ p :: l₂).map Package.id).Nodup := by rw [← hsplit]; exact hnd
      have hq' : q ∈ l₁ ++ p :: l₂ := by rw [← hsplit]; exact hq
      have hqp : q = p := nodup_id_unique hnd' hq' (by rw [hqid, hpid])
      rw [← hqp]
      exact hqdel
    have hd := dispatch_drop_wrong hc hsp hg
    refine ⟨_, _, l₁, p, l₂, step_ok_build hd (carryAttach_none rfl), hsplit, hpid, hpdel,
      rfl, rfl, rfl, ?_⟩
    simp [rewardTotal]

theorem step_drop_semantics_witness :
    (tS2.carrying_id = none →
      ∃ s' r, step testCfg tS2 5 = .ok (s', r) ∧
        r.info.event = some "drop_failed_not_carrying" ∧
        s'.agent_pos = tS2.agent_pos ∧ s'.carrying_id = none ∧
        s'.packages = tS2.packages ∧ s'.walls = tS2.walls ∧
        s'.step_count = tS2.step_count + 1 ∧ s'.battery = max (tS2.battery - 1) 0) ∧
    (∀ pid, tS2.carrying_id = some pid → tS2.agent_pos = goalPos testCfg →
      ∃ s' r l₁ p l₂, step testCfg tS2 5 = .ok (s', r) ∧
        tS2.packages = l₁ ++ p :: l₂ ∧ p.id = pid ∧
        s'.packages = l₁ ++ { p with pos := tS2.agent_pos, delivered := true } :: l₂ ∧
        s'.carrying_id = none ∧ r.info.event = some "deliver" ∧
        r.reward = testCfg.penalty_step + testCfg.reward_deliver) ∧
    (∀ pid, tS2.carrying_id = some pid → tS2.agent_pos ≠ goalPos testCfg →
      ∃ s' r l₁ p l₂, step testCfg tS2 5 = .ok (s', r) ∧
        tS2.packages = l₁ ++ p :: l₂ ∧ p.id = pid ∧ p.delivered = false ∧
        s'.packages = l₁ ++ { p with pos := tS2.agent_pos } :: l₂ ∧
        s'.carrying_id = none ∧ r.info.event = some "drop" ∧
        r.reward = testCfg.penalty_step + testCfg.penalty_drop_wrong) :=
  step_drop_semantics testCfg tS2 (by decide)

end Warehouse
